import Mathlib

/-!
Verification of the AWS SNS notifier (NotifySNS.py): recipient
classification, AWS Signature Version 4 header preparation, dispatch over
phones and topics, and XML response parsing.  Pure functions are embedded
directly; the external cryptographic primitives (HMAC-SHA256 and SHA-256,
from the Python hmac/hashlib libraries) and the HTTP transport
(requests.post wrapped by the _post method) are taken as function
parameters, since they are not code of this repository.  Machine strings
are Lean Strings; byte strings are lists of naturals.
-/

namespace SNS

/-! ## Character classes and small string helpers (Python semantics) -/

/-- The characters the Python regex class backslash-s matches on ASCII input
(space, tab, newline, carriage return, vertical tab, form feed). -/
def isPyWs (c : Char) : Bool :=
  c = ' ' || c = '\t' || c = '\n' || c = '\x0d' || c = '\x0b' || c = '\x0c'

/-- ASCII decimal digit, as matched by the regex class backslash-d. -/
def isDigitA (c : Char) : Bool :=
  48 ≤ c.toNat && c.toNat ≤ 57

/-- ASCII upper-case letter A-Z. -/
def isUpperA (c : Char) : Bool :=
  65 ≤ c.toNat && c.toNat ≤ 90

/-- ASCII lower-case letter a-z. -/
def isLowerA (c : Char) : Bool :=
  97 ≤ c.toNat && c.toNat ≤ 122

/-- The regex class [a-z] under the IGNORECASE flag: any ASCII letter. -/
def isLetterCI (c : Char) : Bool :=
  isLowerA c || isUpperA c

/-- Python str.lower on one character, for the ASCII range handled here. -/
def lowerChar (c : Char) : Char :=
  if 65 ≤ c.toNat ∧ c.toNat ≤ 90 then Char.ofNat (c.toNat + 32) else c

/-- Python str.lower over a whole string (ASCII input). -/
def pyLower (s : String) : String :=
  String.mk (s.data.map lowerChar)

/-- Python str.strip with no argument: remove leading and trailing
whitespace. -/
def pyStrip (s : String) : String :=
  String.mk (((s.data.dropWhile isPyWs).reverse.dropWhile isPyWs).reverse)

/-- A string with no upper-case ASCII letter anywhere. -/
def noUpper (s : String) : Bool :=
  s.data.all (fun c => !isUpperA c)

/-- Python sep.join over a list of strings. -/
def pyJoin (sep : String) : List String → String
  | [] => ""
  | x :: xs => xs.foldl (fun acc y => acc ++ sep ++ y) x

/-- UTF-8 bytes of a string; the strings signed here are ASCII, where the
encoding is the list of code points. -/
def strBytes (s : String) : List Nat :=
  s.data.map Char.toNat

/-- One hex digit, lower case, as Python hexdigest prints it. -/
def hexDigit (n : Nat) : Char :=
  if n < 10 then Char.ofNat (48 + n) else Char.ofNat (87 + n)

/-- Two lower-case hex characters of one byte. -/
def hexByte (b : Nat) : List Char :=
  [hexDigit (b / 16 % 16), hexDigit (b % 16)]

/-- Lower-case hex encoding of a byte string, as hexdigest returns it. -/
def hexOfBytes (bs : List Nat) : String :=
  String.mk (bs.map hexByte).flatten

/-! ## Section: recipient classification (NotifySNS.__init__, lines 143-183)

IS_PHONE_NO is the compiled regex
an optional leading plus sign, then one or more characters of the class
holding the digits, whitespace, both parentheses, the plus sign and the
dash, then optional whitespace (already inside the class), anchored at both
ends.  The named group captures the part after the optional leading plus.
-/

/-- A character of the IS_PHONE_NO character class: digits, whitespace,
parentheses, plus, dash. -/
def phoneClassChar (c : Char) : Bool :=
  isDigitA c || isPyWs c || c = ')' || c = '(' || c = '+' || c = '-'

/-- Match of IS_PHONE_NO against a whole token, returning the captured
group.  When the token starts with a plus the regex first tries to consume
it; if nothing is left for the one-or-more class it backtracks and the
group takes the whole token (the plus itself is in the class). -/
def IS_PHONE_NO (s : String) : Option String :=
  match s.data with
  | '+' :: rest =>
      if rest.all phoneClassChar then
        if rest = [] then some s else some (String.mk rest)
      else none
  | cs =>
      if cs ≠ [] ∧ cs.all phoneClassChar then some s else none

/-- A character of the IS_TOPIC name class: letters, digits, underscore,
dash. -/
def topicClassChar (c : Char) : Bool :=
  isLowerA c || isUpperA c || isDigitA c || c = '_' || c = '-'

/-- The characters of a token after one optional leading hash (the hash is
not a name character, so the optional-hash part of IS_TOPIC consumes it
exactly when it is present). -/
def afterHash (l : List Char) : List Char :=
  match l with
  | '#' :: r => r
  | r => r

/-- Match of IS_TOPIC (an optional leading hash, then one or more name
characters, then optional whitespace), returning the captured name.  The
name class is disjoint from whitespace, so the greedy match is the longest
name-class prefix and the remainder must be all whitespace. -/
def IS_TOPIC (s : String) : Option String :=
  let cs := afterHash s.data
  let name := cs.takeWhile topicClassChar
  let rest := cs.dropWhile topicClassChar
  if name ≠ [] ∧ rest.all isPyWs then some (String.mk name) else none

/-- The token with its one optional leading hash removed. -/
def stripHash (s : String) : String :=
  String.mk (afterHash s.data)

/-- The digit-only form of the captured phone group:
re.findall of backslash-d-plus, joined, keeps exactly the digit
characters in order. -/
def phoneDigits (s : String) : String :=
  String.mk (s.data.filter isDigitA)

/-- Accumulator of the validation loop in NotifySNS.__init__: the growing
phone and topic lists plus the count of dropped entries (each drop only
logs a warning in the source). -/
structure ClassifyResult where
  phone : List String
  topics : List String
  dropped : Nat
deriving DecidableEq

/-- One iteration of the recipient validation loop: try the phone shape
first; a phone-shaped token is kept only when its digit count is in 11..14,
stored with a plus prepended, and otherwise dropped (the loop continues to
the next token without trying the topic shape); a non-phone token is kept
as a topic when IS_TOPIC matches, with the captured name stored; anything
else is dropped. -/
def classifyStep (acc : ClassifyResult) (recipient : String) : ClassifyResult :=
  match IS_PHONE_NO recipient with
  | some g =>
      let ds := phoneDigits g
      if ds.length < 11 ∨ ds.length > 14 then
        { acc with dropped := acc.dropped + 1 }
      else
        { acc with phone := acc.phone ++ ["+" ++ ds] }
  | none =>
      match IS_TOPIC recipient with
      | some name => { acc with topics := acc.topics ++ [name] }
      | none => { acc with dropped := acc.dropped + 1 }

/-- The whole validation loop over the recipient list. -/
def classify (recipients : List String) : ClassifyResult :=
  recipients.foldl classifyStep ⟨[], [], 0⟩

/-! Claim-side recipient shapes, written from the words of the claim, to be
compared with the shapes the code compiles. -/

/-- The phone shape as the claim words it: an optional leading plus, then
one or more of digits, spaces, parentheses and dashes (no interior plus). -/
def claimPhoneShape (s : String) : Bool :=
  let cs := match s.data with
    | '+' :: r => r
    | r => r
  cs ≠ [] && cs.all (fun c => isDigitA c || isPyWs c || c = '(' || c = ')' || c = '-')

/-- The topic shape as the claim words it: an optional leading hash then
one or more name characters, with nothing after them. -/
def claimTopicShape (s : String) : Bool :=
  let cs := afterHash s.data
  cs ≠ [] && cs.all topicClassChar

/-- Per-token phone outcome: the stored phone number, when the token is
kept as a phone. -/
def phoneOf (recipient : String) : Option String :=
  match IS_PHONE_NO recipient with
  | some g =>
      let ds := phoneDigits g
      if ds.length < 11 ∨ ds.length > 14 then none else some ("+" ++ ds)
  | none => none

/-- Per-token topic outcome: the stored topic name, when the token is kept
as a topic. -/
def topicOf (recipient : String) : Option String :=
  match IS_PHONE_NO recipient with
  | some _ => none
  | none => IS_TOPIC recipient

/-- Whether a token is dropped by the validation loop. -/
def droppedTok (recipient : String) : Bool :=
  match IS_PHONE_NO recipient with
  | some g =>
      let ds := phoneDigits g
      decide (ds.length < 11 ∨ ds.length > 14)
  | none =>
      match IS_TOPIC recipient with
      | some _ => false
      | none => true

/-! ## Section: region validation (IS_REGION, __init__, parse_url)

IS_REGION is the compiled regex
optional whitespace, a two-letter country group, a dash, a letter group,
a dash, a digit group, optional whitespace, anchored, IGNORECASE.
-/

/-- Match of IS_REGION, returning the three captured groups
(country, area, number). -/
def IS_REGION (s : String) : Option (String × String × String) :=
  match s.data.dropWhile isPyWs with
  | c1 :: c2 :: '-' :: rest =>
      if isLetterCI c1 ∧ isLetterCI c2 then
        let area := rest.takeWhile isLetterCI
        match rest.dropWhile isLetterCI with
        | '-' :: rest2 =>
            let no := rest2.takeWhile isDigitA
            let rest3 := rest2.dropWhile isDigitA
            if area ≠ [] ∧ no ≠ [] ∧ rest3.all isPyWs then
              some (String.mk [c1, c2], String.mk area, String.mk no)
            else none
        | _ => none
      else none
  | _ => none

/-- The region normalization of NotifySNS.parse_url applied to one path
entry: when the entry matches IS_REGION the region is rebuilt as
lower(country)-lower(area)-number, otherwise the entry is not the region. -/
def parse_url_region (entry : String) : Option String :=
  (IS_REGION entry).map
    (fun g => pyLower g.1 ++ "-" ++ pyLower g.2.1 ++ "-" ++ g.2.2)

/-! ## Section: construction (NotifySNS.__init__, lines 92-187) -/

/-- The fields NotifySNS.__init__ stores on the instance (the service
constants are top-level definitions below). -/
structure SNSState where
  aws_access_key_id : String
  aws_secret_access_key : String
  aws_region_name : String
  notify_url : String
  phone : List String
  topics : List String
deriving DecidableEq

def aws_service_name : String := "sns"

def aws_canonical_uri : String := "/"

def aws_auth_version : String := "AWS4"

def aws_auth_algorithm : String := "AWS4-HMAC-SHA256"

def aws_auth_request : String := "aws4_request"

/-- NotifySNS.__init__ over an explicit recipient list: raises TypeError
(modelled as Except.error with the message) for a falsy access key id,
a falsy secret, or a region that is falsy or fails IS_REGION; otherwise
stores the credentials and the classified recipient lists.  An empty
classified set only logs a warning and construction still succeeds. -/
def init (access_key_id secret_access_key region_name : String)
    (recipients : List String) : Except String SNSState :=
  if access_key_id = "" then
    Except.error "An invalid AWS Access Key ID was specified."
  else if secret_access_key = "" then
    Except.error "An invalid AWS Secret Access Key was specified."
  else if region_name = "" ∨ IS_REGION region_name = none then
    Except.error "An invalid AWS Region was specified."
  else
    let c := classify recipients
    Except.ok
      { aws_access_key_id := access_key_id
        aws_secret_access_key := secret_access_key
        aws_region_name := region_name
        notify_url := "https://sns." ++ region_name ++ ".amazonaws.com/"
        phone := c.phone
        topics := c.topics }

/-- The configuration pipeline for the region: parse_url extracts and
normalizes the region from the URL path entry (None when no entry
matches, modelled as the empty string, which is equally falsy for the
region check of init), then init receives it. -/
def configure (access_key_id secret_access_key : String) (entry : String)
    (recipients : List String) : Except String SNSState :=
  init access_key_id secret_access_key ((parse_url_region entry).getD "")
    recipients

/-! ## Section: request signing (aws_prepare_request, aws_auth_signature)

The reference timestamp captured once by datetime.utcnow() at the start of
header preparation is modelled as an explicit DateTime value; the two
strftime formats used by the source are implemented below.  HMAC-SHA256 is
the parameter named hmac (key and message as byte strings, digest as a byte
string); hexdigest of the library equals the lower-case hex encoding of
digest, so the hex variant is hexOfBytes composed with hmac.  The SHA-256
hexdigest of a byte string is the parameter named shaHex.
-/

/-- The fields of the captured utcnow() value that the two strftime format
strings of the source read. -/
structure DateTime where
  year : Nat
  month : Nat
  day : Nat
  hour : Nat
  minute : Nat
  second : Nat
deriving DecidableEq

/-- Zero-padded two-digit decimal field of strftime. -/
def pad2 (n : Nat) : String :=
  if n < 10 then "0" ++ toString n else toString n

/-- Zero-padded four-digit year field of strftime. -/
def pad4 (n : Nat) : String :=
  if n < 10 then "000" ++ toString n
  else if n < 100 then "00" ++ toString n
  else if n < 1000 then "0" ++ toString n
  else toString n

/-- strftime with format percent-Y percent-m percent-d. -/
def fmtDateStamp (t : DateTime) : String :=
  pad4 t.year ++ pad2 t.month ++ pad2 t.day

/-- strftime with the Amazon date format, date then T then time then Z. -/
def fmtAmzDate (t : DateTime) : String :=
  pad4 t.year ++ pad2 t.month ++ pad2 t.day ++ "T" ++
    pad2 t.hour ++ pad2 t.minute ++ pad2 t.second ++ "Z"

/-- A byte-string HMAC-SHA256 evaluation as the local _sign helper performs
it with to_hex false: digest of the message under the key. -/
def signRaw (hmac : List Nat → List Nat → List Nat) (key : List Nat)
    (msg : String) : List Nat :=
  hmac key (strBytes msg)

/-- The local _sign helper with to_hex true: hexdigest, the lower-case hex
encoding of the digest. -/
def signHex (hmac : List Nat → List Nat → List Nat) (key : List Nat)
    (msg : String) : String :=
  hexOfBytes (hmac key (strBytes msg))

/-- NotifySNS.aws_auth_signature: the four-step derived-key chain followed
by the final hex-encoded HMAC of the string to sign.  The date input of the
first step is the percent-Y percent-m percent-d rendering of the same
reference timestamp the caller used. -/
def aws_auth_signature (hmac : List Nat → List Nat → List Nat)
    (cfg : SNSState) (to_sign : String) (reference : DateTime) : String :=
  let d := signRaw hmac
    (strBytes (aws_auth_version ++ cfg.aws_secret_access_key))
    (fmtDateStamp reference)
  let r := signRaw hmac d cfg.aws_region_name
  let s := signRaw hmac r aws_service_name
  let sg := signRaw hmac s aws_auth_request
  signHex hmac sg to_sign

/-- The spec-worded signing key chain (written from the words of the claim,
not from the source): kDate, kRegion, kService, kSigning are raw digests
and only the final HMAC is hex-encoded. -/
def specSigningChain (hmac : List Nat → List Nat → List Nat)
    (secretKey region service dateStamp stringToSign : String) : String :=
  let kDate := hmac (strBytes ("AWS4" ++ secretKey)) (strBytes dateStamp)
  let kRegion := hmac kDate (strBytes region)
  let kService := hmac kRegion (strBytes service)
  let kSigning := hmac kService (strBytes "aws4_request")
  hexOfBytes (hmac kSigning (strBytes stringToSign))

/-- The Content-Type header value of aws_prepare_request. -/
def contentTypeValue : String :=
  "application/x-www-form-urlencoded; charset=utf-8"

/-- The ordered signed-header mapping of aws_prepare_request: keys lower
case, in the order content-type, host, x-amz-date. -/
def signed_headers (cfg : SNSState) (amzdate : String) :
    List (String × String) :=
  [("content-type", contentTypeValue),
   ("host", aws_service_name ++ "." ++ cfg.aws_region_name ++ ".amazonaws.com"),
   ("x-amz-date", amzdate)]

/-- The credential scope string: date slash region slash service slash
request terminator, all from the one reference timestamp and the stored
configuration. -/
def scopeOf (cfg : SNSState) (reference : DateTime) : String :=
  fmtDateStamp reference ++ "/" ++ cfg.aws_region_name ++ "/" ++
    aws_service_name ++ "/" ++ aws_auth_request

/-- The canonical request of aws_prepare_request: a newline join of the
method, the canonical URI, the empty query string, the header block (one
name colon value line per signed header, with a trailing newline), the
semicolon join of the signed header names, and the hex SHA-256 digest of
the payload. -/
def canonical_request (shaHex : List Nat → String) (cfg : SNSState)
    (payload : String) (amzdate : String) : String :=
  pyJoin "\n"
    ["POST",
     aws_canonical_uri,
     "",
     pyJoin "\n" ((signed_headers cfg amzdate).map
       (fun kv => kv.1 ++ ":" ++ kv.2)) ++ "\n",
     pyJoin ";" ((signed_headers cfg amzdate).map Prod.fst),
     shaHex (strBytes payload)]

/-- The string to sign of aws_prepare_request: a newline join of the
algorithm, the Amazon date, the scope, and the hex SHA-256 digest of the
canonical request. -/
def to_sign (shaHex : List Nat → String) (cfg : SNSState)
    (payload amzdate scope : String) : String :=
  pyJoin "\n"
    [aws_auth_algorithm,
     amzdate,
     scope,
     shaHex (strBytes (canonical_request shaHex cfg payload amzdate))]

/-- The headers aws_prepare_request returns. -/
structure Headers where
  userAgent : String
  contentType : String
  contentLength : String
  authorization : String
  xAmzDate : String
deriving DecidableEq

/-- NotifySNS.aws_prepare_request: builds the headers for an already
url-encoded payload.  The reference argument models the utcnow() value the
source captures at this point; it alone feeds the Amazon date header, the
scope, and (through aws_auth_signature) every step of the signing chain.
The appId argument models the app_id attribute used for User-Agent. -/
def aws_prepare_request (hmac : List Nat → List Nat → List Nat)
    (shaHex : List Nat → String) (cfg : SNSState) (appId : String)
    (payload : String) (reference : DateTime) : Headers :=
  let amzdate := fmtAmzDate reference
  let scope := scopeOf cfg reference
  { userAgent := appId
    contentType := contentTypeValue
    contentLength := toString payload.length
    xAmzDate := amzdate
    authorization := pyJoin ", "
      [aws_auth_algorithm ++ " Credential=" ++ cfg.aws_access_key_id ++
         "/" ++ scope,
       "SignedHeaders=" ++
         pyJoin ";" ((signed_headers cfg amzdate).map Prod.fst),
       "Signature=" ++
         aws_auth_signature hmac cfg
           (to_sign shaHex cfg payload amzdate scope) reference] }

/-- The canonical request as the claim words it, written independently of
the newline-join structure of the source. -/
def specCanonicalRequest (shaHex : List Nat → String) (cfg : SNSState)
    (payload : String) (amzdate : String) : String :=
  "POST\n" ++ aws_canonical_uri ++ "\n\n" ++
  "content-type:" ++ contentTypeValue ++ "\n" ++
  "host:" ++ aws_service_name ++ "." ++ cfg.aws_region_name ++
    ".amazonaws.com" ++ "\n" ++
  "x-amz-date:" ++ amzdate ++ "\n" ++
  "\n" ++
  "content-type;host;x-amz-date" ++ "\n" ++
  shaHex (strBytes payload)

/-- The string to sign as the claim words it. -/
def specStringToSign (shaHex : List Nat → String) (cfg : SNSState)
    (payload amzdate scope : String) : String :=
  aws_auth_algorithm ++ "\n" ++ amzdate ++ "\n" ++ scope ++ "\n" ++
    shaHex (strBytes (specCanonicalRequest shaHex cfg payload amzdate))

/-! ## Section: XML response parsing (aws_response_to_dict, lines 447-522)

The ElementTree parse of the namespace-stripped body is the parameter
named fromstring (None models a raised ParseError, which the source
catches).  An element carries its tag, its optional text (ElementTree
leaves text as None for an empty element) and its children.  Calling strip
on a None text raises AttributeError, which the source does not catch;
the walk is therefore modelled in Except, with error standing for that
uncaught exception.
-/

/-- An ElementTree element: tag, optional text, children. -/
inductive XmlElem where
  | mk (tag : String) (text : Option String) (children : List XmlElem)

def XmlElem.tag : XmlElem → String
  | .mk t _ _ => t

/-- The aws_keep_map directive set: the recognized leaf tags. -/
def isKeepTag (tag : String) : Bool :=
  tag = "RequestId" || tag = "TopicArn" || tag = "MessageId" ||
    tag = "Type" || tag = "Code" || tag = "Message"

/-- The response mapping under construction.  The keys type and request_id
are present from the start with value None (modelled as the two leading
Option fields, none meaning the Python None value); the remaining five
keys are absent until a recognized leaf sets them (none meaning the key is
absent). -/
structure AwsResponse where
  type_ : Option String
  request_id : Option String
  topic_arn : Option String
  message_id : Option String
  error_type : Option String
  error_code : Option String
  error_message : Option String
deriving DecidableEq

/-- The initial response object: only type and request_id populated, both
None. -/
def defaultResponse : AwsResponse :=
  { type_ := none, request_id := none, topic_arn := none,
    message_id := none, error_type := none, error_code := none,
    error_message := none }

/-- Store a recognized value under the key aws_keep_map assigns to its
tag. -/
def setKeep (tag v : String) (r : AwsResponse) : AwsResponse :=
  if tag = "RequestId" then { r with request_id := some v }
  else if tag = "TopicArn" then { r with topic_arn := some v }
  else if tag = "MessageId" then { r with message_id := some v }
  else if tag = "Type" then { r with error_type := some v }
  else if tag = "Code" then { r with error_code := some v }
  else if tag = "Message" then { r with error_message := some v }
  else r

mutual

/-- The local _xml_iter walk: an element with children descends into them
in order (recording nothing for itself); a childless element whose tag is
recognized records its stripped text (raising, modelled as error, when the
text is None); any other childless element records nothing. -/
def xmlIter : XmlElem → AwsResponse → Except Unit AwsResponse
  | .mk tag text [], r =>
      if isKeepTag tag then
        match text with
        | none => Except.error ()
        | some t => Except.ok (setKeep tag (pyStrip t) r)
      else Except.ok r
  | .mk _ _ (c :: cs), r => xmlIterList (c :: cs) r

/-- Depth-first, left-to-right traversal of a child list, threading the
response object exactly as the shared Python dict is threaded. -/
def xmlIterList : List XmlElem → AwsResponse → Except Unit AwsResponse
  | [], r => Except.ok r
  | e :: es, r =>
      match xmlIter e r with
      | Except.error u => Except.error u
      | Except.ok r1 => xmlIterList es r1

end

/-- NotifySNS.aws_response_to_dict.  A None input raises TypeError inside
re.sub, which the except clause catches, returning the default mapping; a
string the parser rejects raises ParseError, also caught, same default;
otherwise the root tag is recorded as type (as a string) and the walk
fills in recognized leaves. -/
def aws_response_to_dict (fromstring : String → Option XmlElem)
    (aws_response : Option String) : Except Unit AwsResponse :=
  match aws_response with
  | none => Except.ok defaultResponse
  | some s =>
      match fromstring s with
      | none => Except.ok defaultResponse
      | some root =>
          xmlIter root { defaultResponse with type_ := some root.tag }

/-! ## Section: dispatch (NotifySNS.notify, lines 188-263)

The _post helper wraps the HTTP transport: it url-encodes the payload,
prepares the signed headers, performs requests.post and returns a pair of
a success flag (ok status) and the parsed response mapping (the default
mapping on connection errors).  Transport and network are external, so
_post is the function parameter named post, from the structured payload to
that pair.  The observable behaviour of notify is its boolean result plus
the ordered trace of transport calls and throttle invocations.
-/

/-- The action payload dictionaries notify builds (fields absent from a
given dictionary are none). -/
structure Payload where
  action : String
  version : String
  message : Option String
  phoneNumber : Option String
  name : Option String
  topicArn : Option String
deriving DecidableEq

/-- The Publish payload for one phone number. -/
def phonePayload (body no : String) : Payload :=
  { action := "Publish", version := "2010-03-31", message := some body,
    phoneNumber := some no, name := none, topicArn := none }

/-- The CreateTopic payload for one topic name. -/
def createTopicPayload (topic : String) : Payload :=
  { action := "CreateTopic", version := "2010-03-31", message := none,
    phoneNumber := none, name := some topic, topicArn := none }

/-- The Publish payload for one resolved topic ARN. -/
def publishTopicPayload (body arn : String) : Payload :=
  { action := "Publish", version := "2010-03-31", message := some body,
    phoneNumber := none, name := none, topicArn := some arn }

/-- One observable step of notify: a _post transport call, or the throttle
pacing delay. -/
inductive Event where
  | call (payload : Payload)
  | throttle
deriving DecidableEq

/-- Python truthiness of response.get on the topic_arn key: an absent key
gives None (falsy) and an empty string is also falsy. -/
def pyTruthy (o : Option String) : Option String :=
  match o with
  | none => none
  | some s => if s = "" then none else some s

/-- The phone loop of notify: pop the front number, post a Publish payload
carrying the number and the message, count a failure on a falsy result,
and throttle exactly when numbers remain.  Returns the failure count and
the event trace. -/
def notifyPhones (post : Payload → Bool × AwsResponse) (body : String) :
    List String → Nat × List Event
  | [] => (0, [])
  | no :: rest =>
      let payload := phonePayload body no
      let result := (post payload).1
      let tail := notifyPhones post body rest
      ((if result then 0 else 1) + tail.1,
        Event.call payload ::
          (if rest = [] then tail.2 else Event.throttle :: tail.2))

/-- The topic loop of notify: pop the front topic, post CreateTopic; on a
falsy result count a failure and continue with the next topic (skipping
the publish and the throttle); with a truthy result but a falsy topic_arn
in the response, likewise count and continue; otherwise post Publish with
the resolved ARN, count its failure if any, and throttle exactly when
topics remain. -/
def notifyTopics (post : Payload → Bool × AwsResponse) (body : String) :
    List String → Nat × List Event
  | [] => (0, [])
  | topic :: rest =>
      let create := createTopicPayload topic
      let res := post create
      let tail := notifyTopics post body rest
      if res.1 = false then
        (1 + tail.1, Event.call create :: tail.2)
      else
        match pyTruthy res.2.topic_arn with
        | none => (1 + tail.1, Event.call create :: tail.2)
        | some arn =>
            let publish := publishTopicPayload body arn
            let result2 := (post publish).1
            ((if result2 then 0 else 1) + tail.1,
              Event.call create :: Event.call publish ::
                (if rest = [] then tail.2 else Event.throttle :: tail.2))

/-- NotifySNS.notify over the two recipient lists: phones first, then
topics, error counts added, result true exactly when the total error count
is zero; the trace is the concatenation of the two loops. -/
def notify (post : Payload → Bool × AwsResponse) (phones topics : List String)
    (body : String) : Bool × List Event :=
  let p := notifyPhones post body phones
  let t := notifyTopics post body topics
  (decide (p.1 + t.1 = 0), p.2 ++ t.2)

/-- notify as the instance method runs it: the source first copies the
stored lists (list(self.phone), list(self.topics)) and pops from the
copies, never assigning to the instance fields, so the state after the
call is the state before it. -/
def notifyS (post : Payload → Bool × AwsResponse) (body : String)
    (s : SNSState) : (Bool × List Event) × SNSState :=
  let phone := s.phone
  let topics := s.topics
  (notify post phone topics body, s)

/-! Claim-side descriptions of the dispatch trace. -/

/-- The transport payloads of a trace, in order. -/
def callsOf (trace : List Event) : List Payload :=
  trace.filterMap (fun e => match e with
    | Event.call p => some p
    | Event.throttle => none)

/-- The transport calls one topic gives rise to: always the CreateTopic
call, followed by the ARN Publish call exactly when the create succeeded
and its parsed response carries a truthy topic ARN. -/
def topicCallsOf (post : Payload → Bool × AwsResponse) (body topic : String) :
    List Payload :=
  let create := createTopicPayload topic
  let res := post create
  if res.1 = false then [create]
  else
    match pyTruthy res.2.topic_arn with
    | none => [create]
    | some arn => [create, publishTopicPayload body arn]

/-- Whether one topic is fully successful: create succeeds, the response
carries a truthy ARN, and the publish with that ARN succeeds. -/
def topicOk (post : Payload → Bool × AwsResponse) (body topic : String) :
    Bool :=
  let res := post (createTopicPayload topic)
  res.1 &&
    (match pyTruthy res.2.topic_arn with
     | none => false
     | some arn => (post (publishTopicPayload body arn)).1)

/-- Whether one topic iteration reaches its publish step (create succeeds
and the response carries a truthy ARN); only such an iteration is followed
by a pacing delay when topics remain. -/
def topicReachesPublish (post : Payload → Bool × AwsResponse)
    (topic : String) : Bool :=
  let res := post (createTopicPayload topic)
  res.1 && (pyTruthy res.2.topic_arn).isSome

/-- Blocks of events separated by exactly one throttle between adjacent
blocks and none at either end. -/
def interThrottle : List (List Event) → List Event
  | [] => []
  | [b] => b
  | b :: bs => b ++ Event.throttle :: interThrottle bs

/-- The claim-side phone trace: one Publish call block per phone, one
pacing delay between adjacent blocks, none after the last. -/
def specPhoneTrace (body : String) (phones : List String) : List Event :=
  interThrottle (phones.map (fun no => [Event.call (phonePayload body no)]))

/-- The claim-side topic trace: per topic its call block, then one pacing
delay exactly when that iteration reached its publish step and topics
remain. -/
def specTopicTrace (post : Payload → Bool × AwsResponse) (body : String) :
    List String → List Event
  | [] => []
  | topic :: rest =>
      (topicCallsOf post body topic).map Event.call ++
        (if topicReachesPublish post topic ∧ rest ≠ [] then
          [Event.throttle] else []) ++
        specTopicTrace post body rest

/-- A concrete always-successful transport used in concrete scenarios: any
call succeeds and the parsed response carries a topic ARN. -/
def postAllOk : Payload → Bool × AwsResponse :=
  fun _ =>
    (true,
      { defaultResponse with
          type_ := some "CreateTopicResponse"
          request_id := some "604bef0f-369c-50c5-a7a4-bbd474c83d6a"
          topic_arn := some "arn:aws:sns:us-east-1:000000000000:abcd" })

/-- Pacing checker, continuation state: the events that may follow a
transport call.  A throttle here must be followed immediately by another
call. -/
def wpTail : List Event → Bool
  | [] => true
  | Event.call _ :: rest => wpTail rest
  | Event.throttle :: Event.call p :: rest => wpTail (Event.call p :: rest)
  | Event.throttle :: _ => false

/-- Pacing checker: every throttle of the trace sits strictly between two
transport calls, so no trace starts or ends with a pacing delay and no two
delays are adjacent. -/
def wellPaced : List Event → Bool
  | [] => true
  | Event.throttle :: _ => false
  | Event.call _ :: rest => wpTail rest

/-! ## Helper lemmas -/

theorem strData_eq {a b : String} (h : a.data = b.data) : a = b :=
  String.ext h

/-- C1 helper: the group captured by IS_PHONE_NO has the same digit-only
form as the whole token (the only character the group can omit is the
leading plus, which is not a digit). -/
theorem phoneDigits_group (tok g : String) (h : IS_PHONE_NO tok = some g) :
    phoneDigits g = phoneDigits tok := by
  unfold IS_PHONE_NO at h
  split at h
  · split at h
    · split at h
      · cases h; rfl
      · cases h
        unfold phoneDigits
        congr 1
        rename_i rest heq hall hne
        rw [heq]
        simp [List.filter, isDigitA]
    · cases h
  · split at h
    · cases h; rfl
    · cases h

/-! ## Claim C1: the signing key chain -/

/-- C1: for every HMAC primitive, secret key, region, service and string
to sign, aws_auth_signature computes exactly the four-step chain kDate,
kRegion, kService, kSigning of raw digests, hex-encoding only the final
HMAC of the string to sign, with the date stamp taken from the reference
timestamp. -/
theorem c1_signing_key_chain (hmac : List Nat → List Nat → List Nat)
    (cfg : SNSState) (stringToSign : String) (reference : DateTime) :
    aws_auth_signature hmac cfg stringToSign reference =
      specSigningChain hmac cfg.aws_secret_access_key cfg.aws_region_name
        "sns" (fmtDateStamp reference) stringToSign :=
  rfl

/-! ## Claim C2: canonical request and string to sign -/

/-- Helper: the canonical request equals its claim-side spelling. -/
theorem canonical_request_eq (shaHex : List Nat → String) (cfg : SNSState)
    (payload amzdate : String) :
    canonical_request shaHex cfg payload amzdate =
      specCanonicalRequest shaHex cfg payload amzdate := by
  apply strData_eq
  simp only [canonical_request, specCanonicalRequest, signed_headers,
    pyJoin, List.map, List.foldl, String.data_append, List.append_assoc,
    List.cons_append, List.nil_append]

/-- C2: for every payload, the canonical request built during header
preparation is exactly the claimed string (method, path, empty query, the
lower-cased signed headers in the fixed order content-type, host,
x-amz-date, the semicolon-joined names, and the payload digest), and the
string to sign is the algorithm, the Amazon date, the scope and the digest
of that canonical request, newline-separated. -/
theorem c2_canonical_request (shaHex : List Nat → String) (cfg : SNSState)
    (payload amzdate scope : String) :
    canonical_request shaHex cfg payload amzdate =
      specCanonicalRequest shaHex cfg payload amzdate
  ∧ to_sign shaHex cfg payload amzdate scope =
      specStringToSign shaHex cfg payload amzdate scope := by
  refine ⟨canonical_request_eq shaHex cfg payload amzdate, ?_⟩
  unfold to_sign specStringToSign
  rw [canonical_request_eq shaHex cfg payload amzdate]
  apply strData_eq
  simp only [pyJoin, List.foldl, String.data_append, List.append_assoc,
    List.cons_append, List.nil_append]

/-! ## Claim C3: recipient classification -/

/-- Helper: the validation loop from any accumulator appends, in input
order, the kept phones, the kept topics, and the drop count. -/
theorem classify_fold (l : List String) :
    ∀ acc : ClassifyResult,
      l.foldl classifyStep acc =
        ⟨acc.phone ++ l.filterMap phoneOf, acc.topics ++ l.filterMap topicOf,
          acc.dropped + l.countP droppedTok⟩ := by
  induction l with
  | nil => intro acc; simp
  | cons x xs ih =>
      intro acc
      simp only [List.foldl_cons, ih, List.filterMap_cons, List.countP_cons]
      unfold classifyStep phoneOf topicOf droppedTok
      cases hp : IS_PHONE_NO x with
      | some g =>
          simp only [hp]
          split
          · simp_all
            omega
          · simp_all
      | none =>
          simp only [hp]
          cases ht : IS_TOPIC x with
          | some nm => simp [ht]
          | none => simp [ht]; omega

/-- Helper: a token of the claimed phone shape (no interior plus) also
matches the compiled IS_PHONE_NO, whose character class is wider. -/
theorem claimPhone_implies (s : String) (h : claimPhoneShape s = true) :
    (IS_PHONE_NO s).isSome = true := by
  unfold claimPhoneShape at h
  unfold IS_PHONE_NO
  have hsub : ∀ c, (isDigitA c || isPyWs c || c = '(' || c = ')' || c = '-') = true →
      phoneClassChar c = true := by
    intro c hc
    unfold phoneClassChar
    simp only [Bool.or_eq_true] at hc ⊢
    tauto
  split
  · rename_i rest heq
    rw [heq] at h
    simp only [afterHash, Bool.and_eq_true, decide_eq_true_eq] at h
    have hall : rest.all phoneClassChar = true := by
      apply List.all_eq_true.mpr
      intro a ha
      exact hsub a (List.all_eq_true.mp h.2 a ha)
    rw [hall]
    simp [h.1]
  · rename_i x hne
    split at h
    · rename_i r heq
      exact absurd heq (fun hh => hne r hh)
    · have h2 := (Bool.and_eq_true _ _).mp h
      have hall : s.data.all phoneClassChar = true := by
        apply List.all_eq_true.mpr
        intro a ha
        exact hsub a (List.all_eq_true.mp h2.2 a ha)
      have hnil : s.data ≠ [] := by
        simpa using h2.1
      simp [hnil, hall]

/-- Helper: a token of the claimed topic shape is matched by IS_TOPIC and
the captured name is the token with its leading hash removed. -/
theorem claimTopic_captures (s : String) (h : claimTopicShape s = true) :
    IS_TOPIC s = some (stripHash s) := by
  unfold claimTopicShape at h
  simp only [Bool.and_eq_true, decide_eq_true_eq] at h
  simp only [IS_TOPIC, stripHash,
    List.takeWhile_eq_self_iff.mpr (fun a ha => List.all_eq_true.mp h.2 a ha),
    List.dropWhile_eq_nil_iff.mpr (fun a ha => List.all_eq_true.mp h.2 a ha)]
  simp [h.1]

/-- C3 counterexample: the token 123+4567890123 matches neither of the two
shapes the claim describes (it has an interior plus), so the claim says it
is dropped; the code accepts it as the phone number +1234567890123,
because the compiled phone character class also holds the plus sign. -/
theorem c3_counterexample :
    claimPhoneShape "123+4567890123" = false
  ∧ claimTopicShape "123+4567890123" = false
  ∧ classify ["123+4567890123"] =
      { phone := ["+1234567890123"], topics := [], dropped := 0 } :=
  ⟨by decide, by decide, by decide⟩

/-- C3 as amended: the phone shape is the compiled IS_PHONE_NO (whose
class also holds the plus sign and whitespace, so it is wider than the
claimed digits, spaces, parentheses and dashes, which still imply a
match); a phone-shaped token is accepted exactly when its digit-only form
has 11 to 14 digits and is stored as a plus followed by those digits
(the captured group has the same digits as the token); a phone-shaped
token out of range is dropped, never tried as a topic; a non-phone token
of the claimed topic shape is stored as a topic with the leading hash
removed; a non-phone token IS_TOPIC rejects is dropped; and the output
lists preserve input order with no deduplication (the classification is
the in-order filterMap of the per-token outcomes). -/
theorem c3_classification_amended (recipients : List String) (tok g : String) :
    classify recipients =
      { phone := recipients.filterMap phoneOf,
        topics := recipients.filterMap topicOf,
        dropped := recipients.countP droppedTok }
  ∧ (claimPhoneShape tok = true → (IS_PHONE_NO tok).isSome = true)
  ∧ (IS_PHONE_NO tok = some g →
      phoneDigits g = phoneDigits tok
      ∧ (11 ≤ (phoneDigits tok).length ∧ (phoneDigits tok).length ≤ 14 →
          phoneOf tok = some ("+" ++ phoneDigits tok) ∧ droppedTok tok = false)
      ∧ ((phoneDigits tok).length < 11 ∨ 14 < (phoneDigits tok).length →
          phoneOf tok = none ∧ topicOf tok = none ∧ droppedTok tok = true))
  ∧ (IS_PHONE_NO tok = none → claimTopicShape tok = true →
      topicOf tok = some (stripHash tok))
  ∧ (IS_PHONE_NO tok = none → IS_TOPIC tok = none → droppedTok tok = true) := by
  refine ⟨?_, claimPhone_implies tok, ?_, ?_, ?_⟩
  · have h := classify_fold recipients ⟨[], [], 0⟩
    simpa [classify] using h
  · intro hg
    have hd := phoneDigits_group tok g hg
    refine ⟨hd, ?_, ?_⟩
    · intro hrange
      unfold phoneOf droppedTok
      rw [hg]
      simp only [hd]
      have : ¬((phoneDigits tok).length < 11 ∨ (phoneDigits tok).length > 14) := by
        omega
      simp [this]
    · intro hrange
      unfold phoneOf topicOf droppedTok
      rw [hg]
      simp only [hd]
      have : (phoneDigits tok).length < 11 ∨ (phoneDigits tok).length > 14 := by
        omega
      simp [this]
  · intro hp ht
    unfold topicOf
    rw [hp, claimTopic_captures tok ht]
  · intro hp ht
    unfold droppedTok
    rw [hp, ht]

/-! ## Claim C4: dispatch order, failure accounting, result -/

/-- Helper: the phone loop posts one Publish payload per phone in list
order, and its failure count is zero exactly when every post succeeded. -/
theorem notifyPhones_spec (post : Payload → Bool × AwsResponse) (body : String) :
    ∀ phones : List String,
      callsOf (notifyPhones post body phones).2 =
        phones.map (phonePayload body)
      ∧ ((notifyPhones post body phones).1 = 0 ↔
          ∀ no ∈ phones, (post (phonePayload body no)).1 = true) := by
  intro phones
  induction phones with
  | nil => simp [notifyPhones, callsOf]
  | cons no rest ih =>
      unfold notifyPhones
      constructor
      · simp only [callsOf, List.filterMap_cons, List.map_cons]
        split
        · simpa [callsOf] using ih.1
        · simpa [callsOf] using ih.1
      · simp only [List.mem_cons]
        constructor
        · intro h0
          have hsum : (if (post (phonePayload body no)).1 then 0 else 1) = 0 ∧
              (notifyPhones post body rest).1 = 0 := by omega
          intro x hx
          rcases hx with hx | hx
          · subst hx
            rcases hsum with ⟨h1, _⟩
            by_contra hfalse
            simp [Bool.not_eq_true] at hfalse
            simp [hfalse] at h1
          · exact (ih.2.mp hsum.2) x hx
        · intro hall
          have h1 : (post (phonePayload body no)).1 = true := hall no (Or.inl rfl)
          have h2 : (notifyPhones post body rest).1 = 0 :=
            ih.2.mpr (fun x hx => hall x (Or.inr hx))
          simp [h1, h2]

/-- Helper: the topic loop posts, per topic in list order, the CreateTopic
payload and, exactly when that succeeds with a truthy ARN in the parsed
response, the Publish payload with the resolved ARN; its failure count is
zero exactly when every topic is fully successful. -/
theorem notifyTopics_spec (post : Payload → Bool × AwsResponse) (body : String) :
    ∀ topics : List String,
      callsOf (notifyTopics post body topics).2 =
        topics.flatMap (topicCallsOf post body)
      ∧ ((notifyTopics post body topics).1 = 0 ↔
          ∀ t ∈ topics, topicOk post body t = true) := by
  intro topics
  induction topics with
  | nil => simp [notifyTopics, callsOf]
  | cons t rest ih =>
      unfold notifyTopics
      by_cases hres : (post (createTopicPayload t)).1 = false
      · simp only [hres, if_pos rfl]
        constructor
        · simp only [callsOf, List.filterMap_cons, List.flatMap_cons]
          rw [show topicCallsOf post body t = [createTopicPayload t] by
            simp [topicCallsOf, hres]]
          simpa [callsOf] using ih.1
        · constructor
          · intro h0
            simp at h0
          · intro hall
            have := hall t (List.mem_cons_self t rest)
            simp [topicOk, hres] at this
      · rw [if_neg (by simpa using hres)]
        rcases harn : pyTruthy (post (createTopicPayload t)).2.topic_arn with _ | arn
        · simp only [harn]
          constructor
          · simp only [callsOf, List.filterMap_cons, List.flatMap_cons]
            rw [show topicCallsOf post body t = [createTopicPayload t] by
              simp [topicCallsOf, hres, harn]]
            simpa [callsOf] using ih.1
          · constructor
            · intro h0
              simp at h0
            · intro hall
              have := hall t (List.mem_cons_self t rest)
              simp [topicOk, harn] at this
        · simp only [harn]
          constructor
          · simp only [callsOf, List.filterMap_cons, List.flatMap_cons]
            rw [show topicCallsOf post body t =
                [createTopicPayload t, publishTopicPayload body arn] by
              simp [topicCallsOf, hres, harn]]
            split <;> simpa [callsOf] using ih.1
          · constructor
            · intro h0
              have hp : (post (publishTopicPayload body arn)).1 = true := by
                by_contra hfalse
                rw [Bool.not_eq_true] at hfalse
                rw [hfalse] at h0
                simp at h0
              rw [hp] at h0
              simp at h0
              intro x hx
              rcases List.mem_cons.mp hx with rfl | hmem
              · have hres2 : (post (createTopicPayload x)).1 = true := by
                  simpa using hres
                simp [topicOk, harn, hp, hres2]
              · exact (ih.2.mp h0) x hmem
            · intro hall
              have ht := hall t (List.mem_cons_self t rest)
              simp only [topicOk, harn] at ht
              have hp : (post (publishTopicPayload body arn)).1 = true := by
                simp at ht
                exact ht.2
              have hr : (notifyTopics post body rest).1 = 0 :=
                ih.2.mpr (fun x hx => hall x (List.mem_cons_of_mem t hx))
              simp [hp, hr]

/-- C4: dispatch posts one Publish per phone first, in list order, then
per topic a CreateTopic and, exactly when it succeeds with a truthy ARN in
the parsed response, a Publish with that ARN; every transport failure and
every missing-ARN topic counts a failure without aborting the rest, and
the result is true exactly when every phone post succeeded and every topic
is fully successful, that is, when the failure counter is zero. -/
theorem c4_dispatch (post : Payload → Bool × AwsResponse)
    (phones topics : List String) (body : String) :
    callsOf (notify post phones topics body).2 =
      phones.map (phonePayload body) ++
        topics.flatMap (topicCallsOf post body)
  ∧ ((notify post phones topics body).1 = true ↔
      (∀ no ∈ phones, (post (phonePayload body no)).1 = true)
      ∧ (∀ t ∈ topics, topicOk post body t = true)) := by
  have hp := notifyPhones_spec post body phones
  have ht := notifyTopics_spec post body topics
  unfold notify
  constructor
  · simp only [callsOf, List.filterMap_append] at *
    rw [hp.1, ht.1]
  · simp only [decide_eq_true_eq, Nat.add_eq_zero]
    rw [Iff.comm]
    constructor
    · intro h
      exact ⟨hp.2.mpr h.1, ht.2.mpr h.2⟩
    · intro h
      exact ⟨hp.2.mp h.1, ht.2.mp h.2⟩

/-! ## Claim C5: pacing delays -/

/-- Helper: a well-paced trace is also a valid continuation after a
call. -/
theorem wellPaced_wpTail (l : List Event) (h : wellPaced l = true) :
    wpTail l = true := by
  match l with
  | [] => rfl
  | Event.throttle :: _ => simp [wellPaced] at h
  | Event.call p :: rest =>
      simp only [wellPaced] at h
      simp only [wpTail]
      exact h

/-- Helper: valid continuations compose with well-paced traces. -/
theorem wpTail_append (a b : List Event) (ha : wpTail a = true)
    (hb : wellPaced b = true) : wpTail (a ++ b) = true := by
  induction a with
  | nil => simpa using wellPaced_wpTail b hb
  | cons e rest ih =>
      match e, rest with
      | Event.call p, rest =>
          simp only [wpTail] at ha
          simpa [wpTail] using ih ha
      | Event.throttle, [] => simp [wpTail] at ha
      | Event.throttle, Event.throttle :: r2 => simp [wpTail] at ha
      | Event.throttle, Event.call p :: r2 =>
          simp only [wpTail] at ha
          have := ih (by simpa [wpTail] using ha)
          simpa [wpTail] using this

/-- Helper: the concatenation of two well-paced traces is well paced (no
pacing delay is introduced at the junction). -/
theorem wellPaced_append (a b : List Event) (ha : wellPaced a = true)
    (hb : wellPaced b = true) : wellPaced (a ++ b) = true := by
  match a with
  | [] => simpa using hb
  | Event.throttle :: _ => simp [wellPaced] at ha
  | Event.call p :: rest =>
      simp only [wellPaced] at ha ⊢
      simp only [List.cons_append]
      show wpTail (rest ++ b) = true
      exact wpTail_append rest b ha hb

/-- Helper: one unfolding of the phone loop trace. -/
theorem notifyPhones_cons (post : Payload → Bool × AwsResponse)
    (body no : String) (rest : List String) :
    (notifyPhones post body (no :: rest)).2 =
      Event.call (phonePayload body no) ::
        (if rest = [] then [] else
          Event.throttle :: (notifyPhones post body rest).2) := by
  cases rest with
  | nil => rfl
  | cons y ys => rfl

/-- Helper: a nonempty phone loop trace opens with the Publish call of its
first number. -/
theorem notifyPhones_head (post : Payload → Bool × AwsResponse)
    (body y : String) (ys : List String) :
    ∃ tl, (notifyPhones post body (y :: ys)).2 =
      Event.call (phonePayload body y) :: tl := by
  unfold notifyPhones
  exact ⟨_, rfl⟩

/-- Helper: the phone loop trace is well paced. -/
theorem notifyPhones_wellPaced (post : Payload → Bool × AwsResponse)
    (body : String) :
    ∀ phones : List String, wellPaced (notifyPhones post body phones).2 = true := by
  intro phones
  induction phones with
  | nil => simp [notifyPhones, wellPaced]
  | cons no rest ih =>
      rw [notifyPhones_cons]
      cases rest with
      | nil => simp [wellPaced, wpTail]
      | cons y ys =>
          rw [if_neg (List.cons_ne_nil y ys)]
          rcases notifyPhones_head post body y ys with ⟨tl, heq⟩
          rw [heq]
          have ihh := ih
          rw [heq] at ihh
          simp only [wellPaced] at ihh
          simp only [wellPaced, wpTail]
          exact ihh

/-- Helper: a nonempty topic loop trace opens with the CreateTopic call of
its first topic. -/
theorem notifyTopics_head (post : Payload → Bool × AwsResponse)
    (body t : String) (ts : List String) :
    ∃ tl, (notifyTopics post body (t :: ts)).2 =
      Event.call (createTopicPayload t) :: tl := by
  unfold notifyTopics
  by_cases hres : (post (createTopicPayload t)).1 = false
  · simp only [hres, if_pos rfl]
    exact ⟨_, rfl⟩
  · rw [if_neg (by simpa using hres)]
    rcases harn : pyTruthy (post (createTopicPayload t)).2.topic_arn with _ | arn
    · exact ⟨_, rfl⟩
    · exact ⟨_, rfl⟩

/-- Helper: the topic loop trace is well paced. -/
theorem notifyTopics_wellPaced (post : Payload → Bool × AwsResponse)
    (body : String) :
    ∀ topics : List String,
      wellPaced (notifyTopics post body topics).2 = true := by
  intro topics
  induction topics with
  | nil => simp [notifyTopics, wellPaced]
  | cons t rest ih =>
      unfold notifyTopics
      by_cases hres : (post (createTopicPayload t)).1 = false
      · simp only [hres, if_pos rfl]
        simp only [wellPaced]
        exact wellPaced_wpTail _ ih
      · rw [if_neg (by simpa using hres)]
        rcases harn : pyTruthy (post (createTopicPayload t)).2.topic_arn with _ | arn
        · simp only [harn, wellPaced]
          exact wellPaced_wpTail _ ih
        · simp only [harn]
          cases rest with
          | nil => simp [notifyTopics, wellPaced, wpTail]
          | cons z zs =>
              rcases notifyTopics_head post body z zs with ⟨tl, heq⟩
              have ihh : wellPaced (Event.call (createTopicPayload z) :: tl) = true :=
                heq ▸ ih
              simp only [wellPaced] at ihh
              simp [wellPaced, wpTail, heq, ihh]

/-- Helper: the phone loop trace is its blocks of single Publish calls
with one pacing delay between adjacent blocks. -/
theorem notifyPhones_trace (post : Payload → Bool × AwsResponse) (body : String) :
    ∀ phones : List String,
      (notifyPhones post body phones).2 = specPhoneTrace body phones := by
  intro phones
  induction phones with
  | nil => simp [notifyPhones, specPhoneTrace, interThrottle]
  | cons no rest ih =>
      unfold notifyPhones specPhoneTrace
      cases rest with
      | nil => simp [interThrottle, specPhoneTrace, notifyPhones]
      | cons y ys =>
          simp only [List.map_cons, interThrottle, ih]
          simp [specPhoneTrace, interThrottle]

/-- Helper: the topic loop trace is, per topic, its call block followed by
one pacing delay exactly when the iteration reached its publish step and
topics remain. -/
theorem notifyTopics_trace (post : Payload → Bool × AwsResponse) (body : String) :
    ∀ topics : List String,
      (notifyTopics post body topics).2 = specTopicTrace post body topics := by
  intro topics
  induction topics with
  | nil => simp [notifyTopics, specTopicTrace]
  | cons t rest ih =>
      unfold notifyTopics specTopicTrace
      by_cases hres : (post (createTopicPayload t)).1 = false
      · simp [hres, topicCallsOf, topicReachesPublish, ih]
      · rw [if_neg (by simpa using hres)]
        have hres2 : (post (createTopicPayload t)).1 = true := by simpa using hres
        rcases harn : pyTruthy (post (createTopicPayload t)).2.topic_arn with _ | arn
        · simp [harn, topicCallsOf, topicReachesPublish, hres2, ih]
        · cases rest with
          | nil => simp [harn, topicCallsOf, topicReachesPublish, hres2, ih,
              notifyTopics, specTopicTrace]
          | cons z zs =>
              simp [harn, topicCallsOf, topicReachesPublish, hres2, ih]

/-- C5 counterexample: with one classified phone and one classified topic
and a fully successful transport, the dispatch trace is the phone Publish
call, the CreateTopic call and the ARN Publish call with no pacing delay
at all; the claim says exactly one delay is observed between the phone
call and the topic calls, but the source only throttles inside a queue
when entries remain in that same queue. -/
theorem c5_counterexample :
    (notify postAllOk ["+12345678901"] ["alerts"] "body").2 =
      [Event.call (phonePayload "body" "+12345678901"),
       Event.call (createTopicPayload "alerts"),
       Event.call (publishTopicPayload "body"
         "arn:aws:sns:us-east-1:000000000000:abcd")]
  ∧ (notify postAllOk ["+12345678901"] ["alerts"] "body").2.count
      Event.throttle = 0 :=
  ⟨by decide, by decide⟩

/-- C5 as amended: the dispatch trace is the phone blocks with one pacing
delay between adjacent phone blocks, followed with no delay in between by
the topic blocks, where a delay follows a topic block exactly when that
iteration reached its publish step and topics remain; every delay sits
strictly between two transport calls, so none ever follows the final
call; and in the scenario with exactly one classified phone and one
classified topic no pacing delay is observed at all. -/
theorem c5_pacing_amended (post : Payload → Bool × AwsResponse)
    (phones topics : List String) (body no topic : String) :
    (notify post phones topics body).2 =
      specPhoneTrace body phones ++ specTopicTrace post body topics
  ∧ wellPaced (notify post phones topics body).2 = true
  ∧ Event.throttle ∉ (notify post [no] [topic] body).2 := by
  refine ⟨?_, ?_, ?_⟩
  · unfold notify
    simp only [notifyPhones_trace, notifyTopics_trace]
  · unfold notify
    exact wellPaced_append _ _ (notifyPhones_wellPaced post body phones)
      (notifyTopics_wellPaced post body topics)
  · simp only [notify]
    rw [notifyPhones_trace, notifyTopics_trace]
    simp [specPhoneTrace, interThrottle, specTopicTrace, topicCallsOf]

/-! ## Claim C6: region validation and normalization -/

/-- Helper: a valid character of Char.ofNat in the lower-case letter range
keeps its code point. -/
theorem toNat_ofNat_inRange (n : Nat) (h1 : 97 ≤ n) (h2 : n ≤ 122) :
    (Char.ofNat n).toNat = n := by
  have hv : n.isValidChar := Or.inl (by omega)
  simp [Char.ofNat, hv, Char.ofNatAux, Char.toNat, UInt32.toNat]

/-- Helper: lowering a character never yields an upper-case letter. -/
theorem lowerChar_not_upper (c : Char) : isUpperA (lowerChar c) = false := by
  unfold lowerChar isUpperA
  by_cases h : 65 ≤ c.toNat ∧ c.toNat ≤ 90
  · rw [if_pos h]
    rw [toNat_ofNat_inRange (c.toNat + 32) (by omega) (by omega)]
    simp
    omega
  · rw [if_neg h]
    simp
    omega

/-- Helper: a lowered string has no upper-case letter. -/
theorem pyLower_noUpper (s : String) : noUpper (pyLower s) = true := by
  unfold noUpper pyLower
  simp only [List.all_map]
  apply List.all_eq_true.mpr
  intro c hc
  simp [lowerChar_not_upper]

/-- Helper: the number group captured by IS_REGION is all digits. -/
theorem IS_REGION_digits (s c a n : String)
    (h : IS_REGION s = some (c, a, n)) : n.data.all isDigitA = true := by
  unfold IS_REGION at h
  split at h
  · split at h
    · split at h
      · dsimp only at h
        split at h
        · cases h
          apply List.all_eq_true.mpr
          intro x hx
          exact List.mem_takeWhile_imp hx
        · cases h
      · dsimp only at h
        cases h
    · cases h
  · cases h

/-- Helper: a digit is not an upper-case letter. -/
theorem digit_not_upper (c : Char) (h : isDigitA c = true) :
    isUpperA c = false := by
  unfold isDigitA at h
  unfold isUpperA
  simp at h ⊢
  omega

/-- Helper: noUpper distributes over concatenation. -/
theorem noUpper_append (x y : String) :
    noUpper (x ++ y) = (noUpper x && noUpper y) := by
  unfold noUpper
  simp [String.data_append, List.all_append]

/-- Helper: the region parse_url rebuilds has no upper-case letter. -/
theorem parse_url_region_noUpper (entry r : String)
    (h : parse_url_region entry = some r) : noUpper r = true := by
  unfold parse_url_region at h
  cases hm : IS_REGION entry with
  | none => rw [hm] at h; cases h
  | some g =>
      rw [hm] at h
      obtain ⟨c, a, n⟩ := g
      replace h : some (pyLower c ++ "-" ++ pyLower a ++ "-" ++ n) = some r := h
      rw [Option.some.injEq] at h
      subst h
      have hd := IS_REGION_digits entry c a n hm
      have hn : noUpper n = true := by
        unfold noUpper
        simp only [List.all_eq_true]
        intro x hx
        simp [digit_not_upper x (List.all_eq_true.mp hd x hx)]
      have hdash : noUpper "-" = true := by decide
      simp [noUpper_append, pyLower_noUpper, hn, hdash]

/-- C6: every region accepted through the configuration pipeline is stored
lower case (the stored region is the parse_url rebuild, which lowers the
letter groups and keeps the digit group); in particular US-East-1
normalizes to the stored region us-east-1, while useast1 fails the
IS_REGION shape so construction raises the region configuration error. -/
theorem c6_region_normalization (entry k sec : String) (recips : List String)
    (st : SNSState) (hok : configure k sec entry recips = Except.ok st) :
    noUpper st.aws_region_name = true
  ∧ st.aws_region_name = (parse_url_region entry).getD ""
  ∧ parse_url_region "US-East-1" = some "us-east-1"
  ∧ IS_REGION "useast1" = none
  ∧ configure k sec "useast1" recips =
      Except.error "An invalid AWS Region was specified." := by
  unfold configure init at hok
  split at hok
  · cases hok
  · split at hok
    · cases hok
    · split at hok
      · cases hok
      · rename_i hk hsec hreg
        rw [Except.ok.injEq] at hok
        subst hok
        refine ⟨?_, rfl, by decide, by decide, ?_⟩
        · cases hm : parse_url_region entry with
          | none =>
              rw [hm] at hreg
              simp at hreg
          | some r => simpa using parse_url_region_noUpper entry r hm
        · unfold configure init
          rw [if_neg hk, if_neg hsec,
            if_pos (by left; decide)]

/-- C6 witness: the normalization and the rejection at the concrete inputs
of the claim, instantiating the theorem at the region US-East-1 with
non-empty credentials. -/
theorem c6_region_witness :
    parse_url_region "US-East-1" = some "us-east-1"
  ∧ configure "AKIAEXAMPLE" "secretkey" "useast1" [] =
      Except.error "An invalid AWS Region was specified." :=
  ⟨(c6_region_normalization "US-East-1" "AKIAEXAMPLE" "secretkey" []
      { aws_access_key_id := "AKIAEXAMPLE",
        aws_secret_access_key := "secretkey",
        aws_region_name := "us-east-1",
        notify_url := "https://sns.us-east-1.amazonaws.com/",
        phone := [], topics := [] } rfl).2.2.1,
   (c6_region_normalization "US-East-1" "AKIAEXAMPLE" "secretkey" []
      { aws_access_key_id := "AKIAEXAMPLE",
        aws_secret_access_key := "secretkey",
        aws_region_name := "us-east-1",
        notify_url := "https://sns.us-east-1.amazonaws.com/",
        phone := [], topics := [] } rfl).2.2.2.2⟩

/-! ## Claim C7: XML response parsing -/

/-- C7: absent input and unparsable input both yield exactly the mapping
with type and request_id present and None and no other key set, without an
error reaching the caller; for parsed input the root tag is recorded as
the type and the depth-first walk starts from it; an element with children
is only descended into, its own tag and text never recorded; a childless
element with a recognized tag records its stripped text under the mapped
key; a childless element with an unrecognized tag records nothing. -/
theorem c7_response_parsing (fromstring : String → Option XmlElem)
    (s : String) :
    aws_response_to_dict fromstring none = Except.ok defaultResponse
  ∧ defaultResponse =
      { type_ := none, request_id := none, topic_arn := none,
        message_id := none, error_type := none, error_code := none,
        error_message := none }
  ∧ (fromstring s = none →
      aws_response_to_dict fromstring (some s) = Except.ok defaultResponse)
  ∧ (∀ root, fromstring s = some root →
      aws_response_to_dict fromstring (some s) =
        xmlIter root { defaultResponse with type_ := some root.tag })
  ∧ (∀ tag text c cs r,
      xmlIter (XmlElem.mk tag text (c :: cs)) r = xmlIterList (c :: cs) r)
  ∧ (∀ tag t r, isKeepTag tag = true →
      xmlIter (XmlElem.mk tag (some t) []) r =
        Except.ok (setKeep tag (pyStrip t) r))
  ∧ (∀ tag text r, isKeepTag tag = false →
      xmlIter (XmlElem.mk tag text []) r = Except.ok r) := by
  refine ⟨rfl, rfl, ?_, ?_, ?_, ?_, ?_⟩
  · intro h
    unfold aws_response_to_dict
    dsimp only
    rw [h]
  · intro root h
    unfold aws_response_to_dict
    dsimp only
    rw [h]
  · intro tag text c cs r
    rfl
  · intro tag t r h
    unfold xmlIter
    rw [if_pos h]
  · intro tag text r h
    unfold xmlIter
    rw [if_neg (by simp [h])]

/-- C7 witness: the two inputs named by the claim, with a parser that
rejects everything, both yield the minimal mapping. -/
theorem c7_response_witness :
    aws_response_to_dict (fun _ => none) none = Except.ok defaultResponse
  ∧ aws_response_to_dict (fun _ => none) (some "not xml") =
      Except.ok defaultResponse :=
  ⟨(c7_response_parsing (fun _ => none) "not xml").1,
   (c7_response_parsing (fun _ => none) "not xml").2.2.1 rfl⟩

/-! ## Claim C8: deterministic header preparation, one timestamp -/

/-- C8: header preparation is a pure function of the credentials, region,
payload and the one captured reference timestamp, so two invocations with
identical inputs including the same timestamp give byte-identical headers;
and the single timestamp is the one instant behind the X-Amz-Date header,
the date of the credential scope, and the reference handed to the signing
chain inside the Authorization header. -/
theorem c8_deterministic_single_timestamp
    (hmac : List Nat → List Nat → List Nat) (shaHex : List Nat → String)
    (cfg : SNSState) (appId payload : String) (t t2 : DateTime)
    (heq : t = t2) :
    aws_prepare_request hmac shaHex cfg appId payload t =
      aws_prepare_request hmac shaHex cfg appId payload t2
  ∧ (aws_prepare_request hmac shaHex cfg appId payload t).xAmzDate =
      fmtAmzDate t
  ∧ scopeOf cfg t = fmtDateStamp t ++ "/" ++ cfg.aws_region_name ++ "/" ++
      aws_service_name ++ "/" ++ aws_auth_request
  ∧ (aws_prepare_request hmac shaHex cfg appId payload t).authorization =
      aws_auth_algorithm ++ " Credential=" ++ cfg.aws_access_key_id ++ "/" ++
        scopeOf cfg t ++
        ", SignedHeaders=content-type;host;x-amz-date, Signature=" ++
        aws_auth_signature hmac cfg
          (to_sign shaHex cfg payload (fmtAmzDate t) (scopeOf cfg t)) t := by
  subst heq
  refine ⟨rfl, rfl, rfl, ?_⟩
  apply strData_eq
  simp only [aws_prepare_request, signed_headers, List.map, pyJoin,
    List.foldl, String.data_append, List.append_assoc, List.cons_append,
    List.nil_append]

/-- C8 witness: the theorem at a concrete timestamp, trivial primitives
and concrete configuration; the date header renders the captured
instant. -/
theorem c8_witness :
    (aws_prepare_request (fun _ _ => []) (fun _ => "d")
      { aws_access_key_id := "AKIAEXAMPLE",
        aws_secret_access_key := "secretkey",
        aws_region_name := "us-east-1",
        notify_url := "https://sns.us-east-1.amazonaws.com/",
        phone := [], topics := [] } "app" "payload"
      ⟨2019, 1, 2, 3, 4, 5⟩).xAmzDate = "20190102T030405Z" := by
  have h := (c8_deterministic_single_timestamp (fun _ _ => []) (fun _ => "d")
    { aws_access_key_id := "AKIAEXAMPLE",
      aws_secret_access_key := "secretkey",
      aws_region_name := "us-east-1",
      notify_url := "https://sns.us-east-1.amazonaws.com/",
      phone := [], topics := [] } "app" "payload"
    ⟨2019, 1, 2, 3, 4, 5⟩ ⟨2019, 1, 2, 3, 4, 5⟩ rfl).2.1
  rw [h]
  decide

/-! ## Claim C9: empty recipient set -/

/-- C9: with valid credentials and region, a recipient list whose
classified set is empty still constructs (the source only logs a warning),
and dispatch on the constructed state performs no transport call (the
event trace is empty) and returns true. -/
theorem c9_no_recipients (k sec reg body : String) (recips : List String)
    (post : Payload → Bool × AwsResponse)
    (hk : k ≠ "") (hs : sec ≠ "")
    (hr : ¬(reg = "" ∨ IS_REGION reg = none))
    (hphone : (classify recips).phone = [])
    (htopic : (classify recips).topics = []) :
    ∃ st, init k sec reg recips = Except.ok st
      ∧ (notifyS post body st).1 = (true, []) := by
  refine ⟨{ aws_access_key_id := k, aws_secret_access_key := sec,
            aws_region_name := reg,
            notify_url := "https://sns." ++ reg ++ ".amazonaws.com/",
            phone := (classify recips).phone,
            topics := (classify recips).topics }, ?_, ?_⟩
  · unfold init
    rw [if_neg hk, if_neg hs, if_neg hr]
  · simp only [notifyS, notify, hphone, htopic]
    simp [notifyPhones, notifyTopics]

/-- C9 witness: concrete valid credentials and region with one dropped
recipient token: construction succeeds and dispatch is an empty, successful
run. -/
theorem c9_witness :
    ∃ st, init "AKIAEXAMPLE" "secretkey" "us-east-1" ["$$$"] = Except.ok st
      ∧ (notifyS postAllOk "hello" st).1 = (true, []) :=
  c9_no_recipients "AKIAEXAMPLE" "secretkey" "us-east-1" "hello" ["$$$"]
    postAllOk (by decide) (by decide) (by decide) (by decide) (by decide)

/-! ## Claim C10: dispatch does not mutate the stored recipient lists -/

/-- C10: the notify method copies the stored lists and pops from the
copies, so the instance state after dispatch equals the state before it,
and a repeated dispatch sees the identical recipient set and produces the
identical result and trace. -/
theorem c10_dispatch_frame (post : Payload → Bool × AwsResponse)
    (body : String) (s : SNSState) :
    (notifyS post body s).2 = s
  ∧ (notifyS post body s).2.phone = s.phone
  ∧ (notifyS post body s).2.topics = s.topics
  ∧ (notifyS post body ((notifyS post body s).2)).1 =
      (notifyS post body s).1 :=
  ⟨rfl, rfl, rfl, rfl⟩

end SNS
